import Mathlib

/-!
Verification of the process-orchestration and text-parsing core of
`src/src-tauri/src/lib.rs` (klia-store).

The Rust source is shallowly embedded: every text grammar becomes a pure,
executable Lean function over `String` / `List Char`, the lock-protected
session registry becomes an explicit map `String → Option _` together with
an action trace, and the stream-relay chunking becomes a function on
character lists.  Rust's primitive string operations (`split`, `trim`,
`contains`, `replace`, `starts_with`) are re-implemented as structurally
recursive list functions so that all definitions compute by kernel
reduction.
-/

/-! ## Rust string primitives -/

/-- Rust's `char::is_whitespace`: the Unicode `White_Space` code points. -/
def rustWhitespace (c : Char) : Bool :=
  (0x09 ≤ c.toNat && c.toNat ≤ 0x0D) || c.toNat == 0x20 || c.toNat == 0x85 ||
  c.toNat == 0xA0 || c.toNat == 0x1680 ||
  (0x2000 ≤ c.toNat && c.toNat ≤ 0x200A) ||
  c.toNat == 0x2028 || c.toNat == 0x2029 || c.toNat == 0x202F ||
  c.toNat == 0x205F || c.toNat == 0x3000

/-- Rust `str::trim`: drop whitespace from both ends. -/
def rustTrim (l : List Char) : List Char :=
  ((l.dropWhile rustWhitespace).reverse.dropWhile rustWhitespace).reverse

/-- Rust `str::trim` on `String`s. -/
def trimS (s : String) : String := String.mk (rustTrim s.data)

/-- Rust `str::split(sep : char)`: split on every occurrence of a single
character, keeping empty segments (so the result is never empty). -/
def splitOnChar (sep : Char) : List Char → List (List Char)
  | [] => [[]]
  | c :: cs =>
    let r := splitOnChar sep cs
    if c = sep then [] :: r
    else (c :: r.headD []) :: r.tail

/-- Substring containment on character lists: does `needle` occur
contiguously in the list? -/
def listIsInfix (needle : List Char) : List Char → Bool
  | [] => needle.isEmpty
  | c :: cs => needle.isPrefixOf (c :: cs) || listIsInfix needle cs

/-- Rust `str::contains(pat : &str)`: substring containment. -/
def containsStr (hay needle : String) : Bool :=
  listIsInfix needle.data hay.data

/-- The prefix of `l` strictly before the first occurrence of the
(non-empty) pattern `pat`; all of `l` when `pat` does not occur. -/
def untilFirst (pat : List Char) : List Char → List Char
  | [] => []
  | c :: cs => if pat.isPrefixOf (c :: cs) then [] else c :: untilFirst pat cs

/-- The suffix of `l` strictly after the first occurrence of `pat`
(`none` when `pat` does not occur).  `afterFirst` and `untilFirst`
together give the segments of Rust's `str::split(pat : &str)` that the
source actually consumes (`.nth(1)` and `.next()`). -/
def afterFirst (pat : List Char) : List Char → Option (List Char)
  | [] => if pat.isEmpty then some [] else none
  | c :: cs =>
    if pat.isPrefixOf (c :: cs) then some ((c :: cs).drop pat.length)
    else afterFirst pat cs

/-- Fuel-driven worker for `removeSeq`; the fuel is an upper bound on the
number of steps (one per input position), so `removeSeq` below always
supplies enough. -/
def removeSeqF (pat : List Char) : Nat → List Char → List Char
  | _, [] => []
  | 0, l => l
  | fuel + 1, c :: cs =>
    if !pat.isEmpty && pat.isPrefixOf (c :: cs) then
      removeSeqF pat fuel ((c :: cs).drop pat.length)
    else c :: removeSeqF pat fuel cs

/-- Rust `str::replace(pat, "")`: delete every (left-to-right,
non-overlapping) occurrence of `pat`. -/
def removeSeq (pat l : List Char) : List Char := removeSeqF pat l.length l

/-- Rust `str::lines()`: split on `'\n'`, drop a final empty segment
(the terminating line break is optional), and strip one trailing `'\r'`
from each line. -/
def rustLines (s : String) : List String :=
  let segs := splitOnChar '\n' s.data
  let segs := if segs.getLast? = some [] then segs.dropLast else segs
  segs.map fun l => String.mk (if l.getLast? = some '\r' then l.dropLast else l)

/-! ## `extract_developer` (lib.rs lines 77–85)

```rust
fn extract_developer(app_id: &str) -> Option<String> {
    let parts: Vec<&str> = app_id.split('.').collect();
    if parts.len() >= 2 {
        Some(parts[parts.len() - 2].to_string())
    } else {
        None
    }
}
``` -/

def extract_developer (app_id : String) : Option String :=
  let parts := (splitOnChar '.' app_id.data).map String.mk
  if parts.length ≥ 2 then some (parts.getD (parts.length - 2) "") else none

/-- The specification's description of the derived developer label: the
second-to-last dot-separated segment, absent when there are fewer than
two segments.  (`l.reverse.get? 1` is exactly "the second-to-last
element of `l`, if it exists".) -/
def specDeveloper (app_id : String) : Option String :=
  ((splitOnChar '.' app_id.data).map String.mk).reverse[1]?

/-! ## Package listing classifier: `get_installed_flatpaks`
(lib.rs lines 459–593, pure part over the captured stdout lines)

The listing has tab-delimited columns
`{application, name, version, description, options, ref}`.  The first
pass pushes each valid row into one of three vectors (apps, runtime
refs, potential extensions); the second pass binds each potential
extension to the first app whose identifier is a prefix of (and distinct
from) the extension's identifier, falling back to the runtime refs. -/

structure InstalledApp where
  app_id : String
  name : String
  version : String
  summary : Option String
  developer : Option String
deriving DecidableEq

structure InstalledExtension where
  extension_id : String
  name : String
  version : String
  parent_app_id : String
deriving DecidableEq

structure ExtCandidate where
  ext_id : String
  name : String
  version : String
  ref_full : String
deriving DecidableEq

structure InstalledPackagesResponse where
  apps : List InstalledApp
  runtimes : List String
  extensions : List InstalledExtension
deriving DecidableEq

/-- A listing line is processed only if its trim is non-empty and it has
at least 6 tab-separated columns (lib.rs 509–514). -/
def rowOfLine (line : String) : Option (List String) :=
  if (trimS line).isEmpty then none
  else
    let parts := (splitOnChar '\t' line.data).map String.mk
    if parts.length ≥ 6 then some parts else none

/-- The fixed platform/SDK denylist (lib.rs 527–532), checked by
substring containment on the trimmed identifier. -/
def isSystemExtension (app_id : String) : Bool :=
  containsStr app_id "org.freedesktop.Platform." ||
  containsStr app_id "org.freedesktop.Sdk." ||
  containsStr app_id ".Platform.GL32" ||
  containsStr app_id ".Platform.VAAPI" ||
  containsStr app_id ".Platform.Compat.i386" ||
  containsStr app_id ".Platform.codecs"

/-- The app record built from a non-runtime row (lib.rs 549–559). -/
def appOfParts (parts : List String) : InstalledApp :=
  let app_id := trimS (parts.getD 0 "")
  { app_id := app_id
    name := trimS (parts.getD 1 "")
    version := trimS (parts.getD 2 "")
    summary :=
      if !(trimS (parts.getD 3 "")).isEmpty then some (trimS (parts.getD 3 ""))
      else none
    developer := extract_developer app_id }

/-- The candidate-extension tuple pushed by the first pass
(lib.rs 537–542): `(app_id, name, version, ref)`. -/
def candOfParts (parts : List String) : ExtCandidate :=
  { ext_id := trimS (parts.getD 0 "")
    name := trimS (parts.getD 1 "")
    version := trimS (parts.getD 2 "")
    ref_full := trimS (parts.getD 5 "") }

/-- A row is a runtime/extension row when its `options` column contains
`runtime` (lib.rs 522). -/
def rowIsRuntime (parts : List String) : Bool :=
  containsStr (trimS (parts.getD 4 "")) "runtime"

/-- First pass of `get_installed_flatpaks` (lib.rs 508–562): collect
apps, platform runtime refs, and potential extensions, in row order. -/
def firstPass : List String → List InstalledApp × List String × List ExtCandidate
  | [] => ([], [], [])
  | line :: rest =>
    let r := firstPass rest
    match rowOfLine line with
    | none => r
    | some parts =>
      if rowIsRuntime parts then
        if isSystemExtension (trimS (parts.getD 0 "")) then
          (r.1, trimS (parts.getD 5 "") :: r.2.1, r.2.2)
        else
          (r.1, r.2.1, candOfParts parts :: r.2.2)
      else
        (appOfParts parts :: r.1, r.2.1, r.2.2)

/-- The parent test of the second pass (lib.rs 570):
`ext_id.starts_with(&app.app_id) && ext_id != app.app_id`. -/
def isParentOf (a : InstalledApp) (extId : String) : Bool :=
  a.app_id.data.isPrefixOf extId.data && extId != a.app_id

/-- Second pass of `get_installed_flatpaks` (lib.rs 564–586): bind each
candidate to the first matching app, else fall back to a runtime ref. -/
def secondPass (apps : List InstalledApp) :
    List ExtCandidate → List InstalledExtension × List String
  | [] => ([], [])
  | c :: cs =>
    let r := secondPass apps cs
    match apps.find? (fun a => isParentOf a c.ext_id) with
    | some a => (⟨c.ext_id, c.name, c.version, a.app_id⟩ :: r.1, r.2)
    | none => (r.1, c.ref_full :: r.2)

/-- The pure classification performed by `get_installed_flatpaks` on the
captured listing lines (lib.rs 502–592). -/
def get_installed_flatpaks (lines : List String) : InstalledPackagesResponse :=
  let fp := firstPass lines
  let sp := secondPass fp.1 fp.2.2
  ⟨fp.1, fp.2.1 ++ sp.2, sp.1⟩

/-! Declarative restatement of the classifier, following the
specification's words, to be proved equal to the two-pass
implementation above. -/

/-- The valid rows of the listing. -/
def specRows (lines : List String) : List (List String) :=
  lines.filterMap rowOfLine

/-- Spec: a valid row whose options column does not contain `runtime`
is an app. -/
def specApps (lines : List String) : List InstalledApp :=
  (specRows lines).filterMap fun p =>
    if rowIsRuntime p then none else some (appOfParts p)

/-- Spec: a runtime row outside the denylist is a candidate extension. -/
def specCandidates (lines : List String) : List ExtCandidate :=
  (specRows lines).filterMap fun p =>
    if rowIsRuntime p && !isSystemExtension (trimS (p.getD 0 "")) then
      some (candOfParts p)
    else none

/-- Spec: a runtime row matching the denylist is a runtime reference. -/
def specPlatformRefs (lines : List String) : List String :=
  (specRows lines).filterMap fun p =>
    if rowIsRuntime p && isSystemExtension (trimS (p.getD 0 "")) then
      some (trimS (p.getD 5 ""))
    else none

/-- Spec: the first classified app that is a parent of the candidate. -/
def specParent (apps : List InstalledApp) (c : ExtCandidate) : Option InstalledApp :=
  apps.find? fun a => isParentOf a c.ext_id

/-- Spec: candidates with a parent app become extension records bound to
that (first-matching) app — regardless of where the parent appeared in
the listing, since `specApps` ranges over the whole listing. -/
def specExtensions (lines : List String) : List InstalledExtension :=
  (specCandidates lines).filterMap fun c =>
    (specParent (specApps lines) c).map fun a => ⟨c.ext_id, c.name, c.version, a.app_id⟩

/-- Spec: the runtime-reference list is the denylisted refs followed by
the refs of candidates with no parent app. -/
def specRuntimes (lines : List String) : List String :=
  specPlatformRefs lines ++
    (specCandidates lines).filterMap fun c =>
      if (specParent (specApps lines) c).isSome then none else some c.ref_full

/-! ## Available-updates parser: `get_available_updates`
(lib.rs lines 843–909, pure part over the captured stdout lines)

```rust
let updates: Vec<UpdateAvailable> = stdout
    .lines()
    .filter(|line| !line.trim().is_empty())
    .filter_map(|line| {
        let parts: Vec<&str> = line.split('\t').collect();
        if parts.len() >= 3 { Some(UpdateAvailable { app_id: parts[0].trim()..,
            new_version: parts[1].trim().., branch: parts[2].trim().. }) }
        else if parts.len() >= 2 { Some(UpdateAvailable { app_id: parts[0].trim()..,
            new_version: String::new(), branch: parts.get(1).unwrap_or(&"stable").trim().. }) }
        else { None }
    })
    .collect();
``` -/

structure UpdateAvailable where
  app_id : String
  new_version : String
  branch : String
deriving DecidableEq

/-- The pure parsing performed by `get_available_updates` on the
captured stdout lines. -/
def get_available_updates (lines : List String) : List UpdateAvailable :=
  (lines.filter fun l => !(trimS l).isEmpty).filterMap fun line =>
    let parts := (splitOnChar '\t' line.data).map String.mk
    if parts.length ≥ 3 then
      some ⟨trimS (parts.getD 0 ""), trimS (parts.getD 1 ""), trimS (parts.getD 2 "")⟩
    else if parts.length ≥ 2 then
      some ⟨trimS (parts.getD 0 ""), "", trimS (parts.getD 1 "stable")⟩
    else none

/-- The per-row behaviour claimed for the updates parser: a non-empty
row with at least three tab-separated fields yields a record from the
first three trimmed fields; a row with exactly two fields yields a
record with empty `new_version` and the trimmed second field as branch;
a row with fewer than two fields yields nothing. -/
def claimUpdateRow (line : String) : Option UpdateAvailable :=
  if (trimS line).isEmpty then none
  else
    let parts := (splitOnChar '\t' line.data).map String.mk
    if parts.length ≥ 3 then
      some ⟨trimS (parts.getD 0 ""), trimS (parts.getD 1 ""), trimS (parts.getD 2 "")⟩
    else if parts.length = 2 then
      some ⟨trimS (parts.getD 0 ""), "", trimS (parts.getD 1 "")⟩
    else none

/-! ## Dependency parser: `get_install_dependencies`
(lib.rs lines 595–841, pure part over the combined captured output)

A numbered line (`1. org.kde.Platform 5.15-23.08 i flathub < 346,1 MB`)
is recognised when the trimmed line starts with one ASCII digit followed
by a literal dot; it is then normalised (non-breaking spaces and tabs to
spaces), split on spaces, and the trailing size-token run starting at
field 4 is joined and cleaned into the size string, which serves as both
`download_size` and `installed_size`. -/

structure Dependency where
  name : String
  download_size : String
  installed_size : String
deriving DecidableEq

/-- The non-breaking-space character normalised by the parser. -/
def nbspChar : Char := Char.ofNat 0xA0

/-- The size-token scan of lib.rs 771–786: starting at field 4, collect
tokens that look like part of a size (`<`, digit-leading, or a unit) and
stop at the first non-size token after the size has started. -/
def collectSizeTokens : List String → Bool → List String
  | [], _ => []
  | p :: ps, found =>
    if p == "<" || (p.data.headD ' ').isDigit ||
        p == "MB" || p == "GB" || p == "kB" || p == "B" then
      p :: collectSizeTokens ps true
    else if found then []
    else collectSizeTokens ps found

/-- The numbered-dependency-line grammar of lib.rs 753–811. -/
def parseDepLine (line : String) : Option Dependency :=
  match rustTrim line.data with
  | [] => none
  | c :: rest =>
    if c.isDigit then
      match rest with
      | '.' :: _ =>
        let normalized := line.data.map fun ch =>
          if ch = nbspChar then ' ' else if ch = '\t' then ' ' else ch
        let parts := ((splitOnChar ' ' normalized).map String.mk).filter
          fun s => !s.isEmpty
        if parts.length ≥ 5 then
          let name := trimS (parts.getD 1 "")
          let sizeTokens := collectSizeTokens (parts.drop 4) false
          let sizeRaw := List.intercalate [' '] (sizeTokens.map String.data)
          let sizeClean := String.mk (rustTrim (removeSeq "(partial)".data
            (removeSeq "(parcial)".data (sizeRaw.filter fun ch => ch ≠ '<'))))
          if !name.isEmpty && !sizeClean.isEmpty then
            some ⟨name, sizeClean, sizeClean⟩
          else none
        else none
      | _ => none
    else none

/-- The runtime-marker extraction of lib.rs 743–749: on a line
containing `Required runtime for`, take the text between the first
`(runtime/` and the next `)` (via `split("(runtime/").nth(1)` and
`split(')').next()`); absent when `(runtime/` does not occur. -/
def markerOf (line : String) : Option String :=
  if containsStr line "Required runtime for" then
    match afterFirst "(runtime/".data line.data with
    | some restChars =>
      some (String.mk (untilFirst [')'] (untilFirst "(runtime/".data restChars)))
    | none => none
  else none

/-- The mutable scan state of the parsing loop (lib.rs 729–731). -/
structure DepScan where
  appMain : Option Dependency
  deps : List Dependency
  runtime : Option String
deriving DecidableEq

/-- One iteration of the parsing loop (lib.rs 733–812): skip blank
lines; update the last-seen runtime marker; file a parsed numbered row
under `app_main` (when its name is the requested identifier, last row
wins) or append it to the dependency list. -/
def depStep (app_id : String) (st : DepScan) (line : String) : DepScan :=
  if (trimS line).isEmpty then st
  else
    let st1 :=
      match markerOf line with
      | some r => DepScan.mk st.appMain st.deps (some r)
      | none => st
    match parseDepLine line with
    | some dep =>
      if dep.name == app_id then DepScan.mk (some dep) st1.deps st1.runtime
      else DepScan.mk st1.appMain (st1.deps ++ [dep]) st1.runtime
    | none => st1

/-- The pure parse-and-assemble part of `get_install_dependencies`
(lib.rs 727–840): scan the combined output, then synthesise the two
`Unknown` fallback records when no row was parsed for the requested
package but a runtime marker was seen, and put the main record first. -/
def get_install_dependencies_parse (app_id : String) (combined : String) :
    List Dependency :=
  let st := (rustLines combined).foldl (depStep app_id) (DepScan.mk none [] none)
  match st.appMain, st.runtime with
  | none, some r =>
    Dependency.mk app_id "Unknown" "Unknown" ::
      (st.deps ++ [Dependency.mk r "Unknown" "Unknown"])
  | none, none => st.deps
  | some m, _ => m :: st.deps

/-! Declarative observables of the dependency scan, for the C6
characterisation. -/

/-- All parsed numbered rows of the combined output, in order. -/
def parsedRows (combined : String) : List Dependency :=
  (rustLines combined).filterMap fun l =>
    if (trimS l).isEmpty then none else parseDepLine l

/-- The last runtime marker extracted from the combined output. -/
def markerRT (combined : String) : Option String :=
  ((rustLines combined).filterMap fun l =>
    if (trimS l).isEmpty then none else markerOf l).getLast?

/-- The last parsed row whose name is the requested identifier. -/
def mainRow (app_id combined : String) : Option Dependency :=
  ((parsedRows combined).filter fun d => d.name == app_id).getLast?

/-- The parsed rows not named after the requested identifier. -/
def otherRows (app_id combined : String) : List Dependency :=
  (parsedRows combined).filter fun d => !(d.name == app_id)

/-! ## Streaming output relay chunking
(lib.rs 1450–1461 in `start_flatpak_interactive`, likewise 145–157 in
`install_flatpak`)

```rust
let chunk = String::from_utf8_lossy(&buffer[..n]).to_string();
for line in chunk.split('\n') {
    if !line.is_empty() {
        let _ = app_clone.emit("pty-output", (app_id.clone(), line.to_string()));
    }
}
``` -/

/-- The events emitted for one read chunk: split on `'\n'` only and emit
every non-empty segment, carriage returns untouched. -/
def emitChunkLines (chunk : List Char) : List (List Char) :=
  (splitOnChar '\n' chunk).filter fun l => !l.isEmpty

/-! ## Phase-2 probe: numbered-list detection (lib.rs 676–693)

```rust
let trimmed = line.trim();
if trimmed.starts_with(|c: char| c.is_ascii_digit()) && trimmed.contains('.') {
    line_count_in_list += 1;
}
if line_count_in_list >= 1 {
    *found_clone_out.lock().unwrap() = true;
}
``` -/

/-- Rust `starts_with(|c| c.is_ascii_digit())`. -/
def startsWithDigit (l : List Char) : Bool := (l.headD ' ').isDigit

/-- The probe's detection predicate for one output line (lib.rs 684):
the trimmed line starts with an ASCII digit and contains a dot
somewhere. -/
def numberedLineDetected (line : String) : Bool :=
  startsWithDigit (rustTrim line.data) && (rustTrim line.data).contains '.'

/-- The claimed detection predicate: the trimmed line begins with a
digit immediately followed by a literal dot. -/
def claimNumberedLine (line : String) : Bool :=
  match rustTrim line.data with
  | c :: d :: _ => c.isDigit && d == '.'
  | _ => false

/-- The stdout-scanning loop of the phase-2 probe, with its line counter
and `found` flag (lib.rs 676–693), over the sequence of output lines. -/
def phase2Scan : List String → Nat → Bool → Bool
  | [], _, found => found
  | l :: ls, count, found =>
    let count1 := if numberedLineDetected l then count + 1 else count
    let found1 := if count1 ≥ 1 then true else found
    phase2Scan ls count1 found1

/-- Whether the probe records the dependency list as observed for the
given output lines. -/
def phase2Found (lines : List String) : Bool := phase2Scan lines 0 false

/-! ## Session registry and process models (C1, C2, C3)

The session registry `ProcessMap = Arc<Mutex<HashMap<String, PtyProcess>>>`
is modelled as a function from keys to optional entries; the registry
mutations of the source are modelled together with an explicit action
trace recording what happens to process handles. -/

/-- Observable actions on process handles during a registry update. -/
inductive RegAction where
  /-- The process with this pid is forcibly terminated (`child.kill()`). -/
  | killProc (pid : Nat)
  /-- A still-tracked handle is dropped without terminating the process
  (the value returned by `HashMap::insert` is discarded). -/
  | dropUnkilled (pid : Nat)
  /-- A new session for `key` with process `pid` is put into the map. -/
  | insertProc (key : String) (pid : Nat)
deriving DecidableEq

/-- The registry-insertion step of `start_flatpak_interactive`
(lib.rs 1436–1440): unconditionally `map.insert(app_id, PtyProcess
{child, stdin})`.  If an entry for the key is present, `insert` replaces
it and the old `PtyProcess` is dropped — no `kill` is issued anywhere on
this path. -/
def start_flatpak_interactive_store (m : String → Option Nat) (key : String)
    (pid : Nat) : (String → Option Nat) × List RegAction :=
  (fun k => if k = key then some pid else m k,
   (match m key with
    | some old => [RegAction.dropUnkilled old]
    | none => []) ++ [RegAction.insertProc key pid])

/-- A live interactive session as held by the registry: the process id,
the bytes written to its stdin so far, and how often stdin was flushed. -/
structure PtySession where
  pid : Nat
  stdinBuf : List Char
  flushCount : Nat
deriving DecidableEq

/-- `send_to_pty` (lib.rs 1525–1556): look up the key; if absent, fail
with the not-found error and touch nothing; if present, write the input
plus `"\n"` to the session's stdin and flush it. -/
def send_to_pty (m : String → Option PtySession) (app_id input : String) :
    Except String Unit × (String → Option PtySession) :=
  match m app_id with
  | some s =>
    (Except.ok (),
     fun k =>
       if k = app_id then
         some (PtySession.mk s.pid (s.stdinBuf ++ input.data ++ ['\n']) (s.flushCount + 1))
       else m k)
  | none => (Except.error ("No process found for app_id: " ++ app_id), m)

/-- The events `install_flatpak` can emit (lib.rs 107–195), together
with the `Failed`-style event the specification's `run_streaming`
contract describes (which this command never produces). -/
inductive InstallEvent where
  | ptyOutput (app_id line : String)
  | ptyError (app_id line : String)
  | ptyTerminated (app_id : String)
  | failedEvent (message : String)
deriving DecidableEq

/-- The handles of a spawned child usable by `install_flatpak`. -/
structure SpawnedChild where
  stdinH : Option Nat
  stdoutH : Option Nat
  stderrH : Option Nat
deriving DecidableEq

/-- The synchronous control flow of `install_flatpak` (lib.rs 108–194)
as a function of the spawn outcome: a spawn failure is propagated to the
caller via `map_err(..)?` with no event emitted; with a spawned child,
each missing handle is likewise an error; otherwise the command returns
`Ok` immediately (the streaming happens on background threads).  The
returned list holds the events emitted before returning. -/
def install_flatpak (spawnResult : Except String SpawnedChild) :
    Except String Unit × List InstallEvent :=
  match spawnResult with
  | Except.error e => (Except.error ("Failed to spawn process: " ++ e), [])
  | Except.ok child =>
    match child.stdinH with
    | none => (Except.error "Failed to get stdin", [])
    | some _ =>
      match child.stdoutH with
      | none => (Except.error "Failed to get stdout", [])
      | some _ =>
        match child.stderrH with
        | none => (Except.error "Failed to get stderr", [])
        | some _ => (Except.ok (), [])

/-- A registry with one live session (pid 10) for `com.example.app`. -/
def regC1 : String → Option Nat :=
  fun k => if k = "com.example.app" then some 10 else none

/-- A registry with one live session for `io.example.app`. -/
def regC3 : String → Option PtySession :=
  fun k => if k = "io.example.app" then some (PtySession.mk 7 [] 0) else none

/-- Last-wins update: the last element of `xs` if any, else `o`.  This
is how repeated `x = Some(..)` assignments in a loop accumulate. -/
def lastUpd {α : Type} (o : Option α) (xs : List α) : Option α :=
  match xs.getLast? with
  | some x => some x
  | none => o

/-- A captured phase-2 output consisting of a runtime-requirement marker
line followed by a parsable numbered row for that very runtime. -/
def c6combined : String :=
  "Required runtime for com.example.editor/x86_64/stable (runtime/org.kde.Platform/x86_64/5.15-23.08) found in remote flathub\n1. org.kde.Platform/x86_64/5.15-23.08 5.15-23.08 i flathub 300,0 MB"

/-- The numbered row of `c6combined`. -/
def c6row : String :=
  "1. org.kde.Platform/x86_64/5.15-23.08 5.15-23.08 i flathub 300,0 MB"

/-! ## Theorems -/

/-- Helper: `getD` at an index below the length is the `getElem?` value. -/
theorem listGetD_of_lt {α : Type} (l : List α) (n : Nat) (d : α) (h : n < l.length) :
    some (l.getD n d) = l[n]? := by
  simp [List.getD_eq_getElem?_getD, List.getElem?_eq_getElem h]

/-- C9: `extract_developer` returns exactly the second-to-last
dot-separated segment of the identifier, and is absent when the
identifier has fewer than two dot-separated segments. -/
theorem extract_developer_eq_secondToLast (app_id : String) :
    extract_developer app_id = specDeveloper app_id := by
  unfold extract_developer specDeveloper
  set parts := (splitOnChar '.' app_id.data).map String.mk with hp
  by_cases h : parts.length ≥ 2
  · have h1 : 1 < parts.length := by omega
    have h2 : parts.length - 2 < parts.length := by omega
    have h3 : parts.length - 1 - 1 = parts.length - 2 := by omega
    rw [if_pos h, List.getElem?_reverse h1, h3,
      ← listGetD_of_lt parts (parts.length - 2) "" h2]
  · rw [if_neg h]
    symm
    apply List.getElem?_eq_none
    simp only [List.length_reverse]
    omega

/-- The one-pass loop of `get_installed_flatpaks` computes exactly the
three declarative row classifications. -/
theorem firstPass_eq (lines : List String) :
    firstPass lines = (specApps lines, specPlatformRefs lines, specCandidates lines) := by
  induction lines with
  | nil => rfl
  | cons line rest ih =>
    unfold firstPass
    rw [ih]
    simp only [specApps, specPlatformRefs, specCandidates, specRows, List.filterMap_cons]
    cases hrow : rowOfLine line with
    | none => rfl
    | some parts =>
      by_cases hrt : rowIsRuntime parts
      · by_cases hsys : isSystemExtension (trimS (parts[0]?.getD ""))
        · simp [hrt, hsys]
        · simp [hrt, hsys]
      · simp [hrt]

/-- The second pass binds each candidate to its first parent app (if
any) and otherwise demotes it to a runtime reference. -/
theorem secondPass_eq (apps : List InstalledApp) (cs : List ExtCandidate) :
    secondPass apps cs =
      (cs.filterMap fun c =>
        (specParent apps c).map fun a => ⟨c.ext_id, c.name, c.version, a.app_id⟩,
       cs.filterMap fun c =>
        if (specParent apps c).isSome then none else some c.ref_full) := by
  induction cs with
  | nil => rfl
  | cons c rest ih =>
    unfold secondPass
    rw [ih]
    simp only [List.filterMap_cons]
    cases hf : apps.find? (fun a => isParentOf a c.ext_id) with
    | none =>
      simp only [specParent, hf]
      simp
    | some a =>
      simp only [specParent, hf]
      simp

/-- The parent test is exactly "the app's identifier is a strict prefix
of the extension's identifier" (starts with it and is strictly longer). -/
theorem isParentOf_iff_strictPrefix (a : InstalledApp) (extId : String) :
    isParentOf a extId =
      (a.app_id.data.isPrefixOf extId.data &&
        decide (a.app_id.data.length < extId.data.length)) := by
  unfold isParentOf
  cases hpre : a.app_id.data.isPrefixOf extId.data with
  | false => simp
  | true =>
    have hp : a.app_id.data <+: extId.data := by
      rw [← List.isPrefixOf_iff_prefix]
      exact hpre
    have hle := hp.length_le
    simp only [Bool.true_and, bne_iff_ne, ne_eq]
    by_cases heq : extId = a.app_id
    · subst heq
      simp
    · have hlt : a.app_id.data.length < extId.data.length := by
        rcases Nat.lt_or_ge a.app_id.data.length extId.data.length with h | h
        · exact h
        · exfalso
          apply heq
          have hd : a.app_id.data = extId.data := hp.eq_of_length (by omega)
          exact congrArg String.mk hd.symm
      have hlt2 : a.app_id.length < extId.length := hlt
      simp [heq, hlt2]

/-- C4: the package-listing classifier matches its declarative
description.  A valid 6-column row is classified as runtime/extension
exactly when its options column contains `runtime` and otherwise as an
app; among runtime rows, those matching the platform/SDK denylist become
runtime references and are never extension candidates; in the second
pass every remaining candidate is bound to the first classified app
whose identifier is a strict prefix of the candidate's identifier
(starts with it and is strictly longer) — the app may appear anywhere in
the listing — and candidates with no matching app fall back to runtime
references.  The final conjunct pins the parent test to exactly the
strict-prefix check. -/
theorem C4_get_installed_flatpaks_classification (lines : List String) :
    get_installed_flatpaks lines =
      ⟨specApps lines, specRuntimes lines, specExtensions lines⟩ ∧
    ∀ (a : InstalledApp) (extId : String),
      isParentOf a extId =
        (a.app_id.data.isPrefixOf extId.data &&
          decide (a.app_id.data.length < extId.data.length)) := by
  constructor
  · unfold get_installed_flatpaks
    rw [firstPass_eq]
    simp only
    rw [secondPass_eq]
    simp only [specRuntimes, specExtensions]
  · exact isParentOf_iff_strictPrefix

/-- C10: the updates parser maps every output row exactly as claimed:
≥3 fields → record of the first three trimmed fields; exactly 2 fields →
record with empty version and the trimmed second field as branch; <2
fields (or a blank row) → no record. -/
theorem C10_get_available_updates_rows (lines : List String) :
    get_available_updates lines = lines.filterMap claimUpdateRow := by
  unfold get_available_updates
  induction lines with
  | nil => rfl
  | cons line rest ih =>
    rw [List.filterMap_cons]
    by_cases hb : (trimS line).isEmpty
    · rw [List.filter_cons_of_neg (by simp [hb]), ih]
      simp [claimUpdateRow, hb]
    · rw [List.filter_cons_of_pos (by simp [hb]), List.filterMap_cons, ih]
      simp only [claimUpdateRow, hb, if_neg (by simp [hb] : ¬(trimS line).isEmpty = true)]
      set parts := (splitOnChar '\t' line.data).map String.mk with hparts
      by_cases h3 : parts.length ≥ 3
      · simp [h3]
      · by_cases h2 : parts.length ≥ 2
        · have he : parts.length = 2 := by omega
          have hgd : parts.getD 1 "stable" = parts.getD 1 "" := by
            have hlt : 1 < parts.length := by omega
            have a1 := listGetD_of_lt parts 1 "stable" hlt
            have a2 := listGetD_of_lt parts 1 "" hlt
            have := a1.trans a2.symm
            exact Option.some_injective _ this
          simp [h3, h2, he, hgd]
        · have hne : parts.length ≠ 2 := by omega
          simp [h3, h2, hne]

/-- Once the probe's `found` flag is set it stays set. -/
theorem phase2Scan_true (ls : List String) (c : Nat) : phase2Scan ls c true = true := by
  induction ls generalizing c with
  | nil => rfl
  | cons l ls ih =>
    unfold phase2Scan
    simp only []
    split <;> simp [ih]

/-- Starting from a zero counter and an unset flag, the probe's flag
ends set iff some line is detected. -/
theorem phase2Scan_zero (ls : List String) :
    phase2Scan ls 0 false = ls.any numberedLineDetected := by
  induction ls with
  | nil => rfl
  | cons l ls ih =>
    unfold phase2Scan
    by_cases hd : numberedLineDetected l
    · simp [hd, phase2Scan_true]
    · simpa [hd] using ih

/-- C8 (amended): the probe records the dependency list as observed
exactly when some output line satisfies the detection predicate, and
that predicate holds for a trimmed line iff the line starts with an
ASCII digit and contains a literal dot anywhere (not necessarily
immediately after the digit). -/
theorem C8_phase2_detection (lines : List String) :
    phase2Found lines =
      lines.any fun l => startsWithDigit (rustTrim l.data) && (rustTrim l.data).contains '.' := by
  unfold phase2Found
  rw [phase2Scan_zero]
  rfl

/-- C8 counterexample: the trimmed line `1x.` is detected by the probe
(it starts with a digit and contains a dot), yet its first digit is not
immediately followed by a dot — the claimed predicate rejects it. -/
theorem C8_counterexample :
    numberedLineDetected "1x." = true ∧ claimNumberedLine "1x." = false := by
  decide

/-- A list without the separator splits into a single segment. -/
theorem splitOnChar_of_not_mem (sep : Char) (l : List Char) (h : sep ∉ l) :
    splitOnChar sep l = [l] := by
  induction l with
  | nil => rfl
  | cons c cs ih =>
    have hc : c ≠ sep := fun he => h (he ▸ List.mem_cons_self c cs)
    have hcs : sep ∉ cs := fun hm => h (List.mem_cons_of_mem c hm)
    unfold splitOnChar
    rw [ih hcs]
    simp [hc]

/-- Splitting peels off a separator-free prefix as one segment. -/
theorem splitOnChar_append (sep : Char) (a rest : List Char) (h : sep ∉ a) :
    splitOnChar sep (a ++ sep :: rest) = a :: splitOnChar sep rest := by
  induction a with
  | nil => simp [splitOnChar]
  | cons c cs ih =>
    have hc : c ≠ sep := fun he => h (he ▸ List.mem_cons_self c cs)
    have hcs : sep ∉ cs := fun hm => h (List.mem_cons_of_mem c hm)
    have ihr := ih hcs
    rw [List.cons_append]
    simp only [splitOnChar]
    rw [ihr]
    simp [hc]

/-- C7 (amended): the relay splits each chunk on line feeds only and
emits exactly the non-empty segments.  (i) A chunk with carriage returns
but no line feed is delivered as exactly one event, the chunk itself,
carriage returns verbatim.  (ii) A chunk of the form `a\nb\n` with `a`,
`b` non-empty and line-feed-free produces exactly the two events `a`,
`b`, the trailing empty segment being suppressed. -/
theorem C7_chunk_split :
    (∀ chunk : List Char, '\n' ∉ chunk → '\r' ∈ chunk →
      emitChunkLines chunk = [chunk]) ∧
    (∀ a b : List Char, '\n' ∉ a → '\n' ∉ b → a ≠ [] → b ≠ [] →
      emitChunkLines (a ++ '\n' :: (b ++ ['\n'])) = [a, b]) := by
  constructor
  · intro chunk hlf hcr
    have hne : chunk ≠ [] := by
      intro he
      rw [he] at hcr
      exact absurd hcr (List.not_mem_nil '\r')
    unfold emitChunkLines
    rw [splitOnChar_of_not_mem '\n' chunk hlf]
    simp [hne]
  · intro a b ha hb hane hbne
    unfold emitChunkLines
    rw [splitOnChar_append '\n' a (b ++ ['\n']) ha, splitOnChar_append '\n' b [] hb]
    simp [hane, hbne, splitOnChar]

/-- C7 witness: a carriage-return progress chunk with no line feed is
forwarded as a single verbatim event, and `a\nb\n` gives two events. -/
theorem C7_witness :
    emitChunkLines ['p', '\r', 'q'] = [['p', '\r', 'q']] ∧
    emitChunkLines (['o', 'k'] ++ '\n' :: (['g', 'o'] ++ ['\n'])) = [['o', 'k'], ['g', 'o']] :=
  ⟨C7_chunk_split.1 ['p', '\r', 'q'] (by decide) (by decide),
   C7_chunk_split.2 ['o', 'k'] ['g', 'o'] (by decide) (by decide) (by decide) (by decide)⟩

/-- C7 counterexample: the chunk `a\n\n` contains two line feeds but
produces exactly one event, not two — the segment between the two line
feeds is empty and is suppressed along with the trailing one. -/
theorem C7_counterexample :
    List.count '\n' ['a', '\n', '\n'] = 2 ∧
    emitChunkLines ['a', '\n', '\n'] = [['a']] := by
  decide

/-- C1 counterexample: starting an interactive session for a key that
already has a live session (pid 10) produces no kill action — the old
handle is dropped unkilled and the new session is inserted, so the old
process is not terminated before insertion. -/
theorem C1_counterexample :
    regC1 "com.example.app" = some 10 ∧
    (start_flatpak_interactive_store regC1 "com.example.app" 11).2 =
      [RegAction.dropUnkilled 10, RegAction.insertProc "com.example.app" 11] ∧
    RegAction.killProc 10 ∉ (start_flatpak_interactive_store regC1 "com.example.app" 11).2 := by
  refine ⟨rfl, rfl, ?_⟩
  intro hmem
  simp [start_flatpak_interactive_store, regC1] at hmem

/-- C1 (amended): starting a session for a key that already has a live
entry replaces the entry in a single insert — afterwards the key maps to
the new process only, and no other key changes — but the old process is
not terminated first: its handle is dropped unkilled (leaked), and no
kill action occurs on this path. -/
theorem C1_start_replaces_without_kill (m : String → Option Nat) (key : String)
    (pid old : Nat) (h : m key = some old) :
    (start_flatpak_interactive_store m key pid).2 =
      [RegAction.dropUnkilled old, RegAction.insertProc key pid] ∧
    (start_flatpak_interactive_store m key pid).1 key = some pid ∧
    (∀ p, RegAction.killProc p ∉ (start_flatpak_interactive_store m key pid).2) ∧
    (∀ k, k ≠ key → (start_flatpak_interactive_store m key pid).1 k = m k) := by
  refine ⟨?_, ?_, ?_, ?_⟩
  · simp [start_flatpak_interactive_store, h]
  · simp [start_flatpak_interactive_store]
  · intro p hmem
    simp [start_flatpak_interactive_store, h] at hmem
  · intro k hk
    simp [start_flatpak_interactive_store, hk]

/-- C1 witness: the amended statement instantiated at a registry whose
key `com.example.app` holds the live pid 10. -/
theorem C1_witness :
    (start_flatpak_interactive_store regC1 "com.example.app" 11).1 "com.example.app" =
      some 11 ∧
    (start_flatpak_interactive_store regC1 "com.example.app" 11).1 "other.app" = none :=
  ⟨(C1_start_replaces_without_kill regC1 "com.example.app" 11 10 rfl).2.1,
   by
    have h := (C1_start_replaces_without_kill regC1 "com.example.app" 11 10 rfl).2.2.2
      "other.app" (by decide)
    rw [h]
    rfl⟩

/-- C2 counterexample: when the spawn fails, `install_flatpak` returns
an error result to the caller and emits no event at all — in particular
not a single `Failed`-style event. -/
theorem C2_counterexample :
    (install_flatpak (Except.error "boom")).1 =
      Except.error "Failed to spawn process: boom" ∧
    (install_flatpak (Except.error "boom")).2 = [] := by
  exact ⟨rfl, rfl⟩

/-- C2 (amended): for every spawn failure, the streaming install command
propagates the failure as an error result (`Failed to spawn process:
...`) to the caller and emits no events. -/
theorem C2_spawn_failure_raises (e : String) :
    install_flatpak (Except.error e) =
      (Except.error ("Failed to spawn process: " ++ e), []) := rfl

/-- C3: `send_to_pty` on a key with no live session fails with the
not-found error and performs no I/O (the registry, hence every session's
stdin buffer and flush count, is unchanged); on a key with a live
session it succeeds, appending exactly the input plus a line feed to
that session's stdin buffer and flushing it once, leaving every other
key untouched. -/
theorem C3_send_to_pty (m : String → Option PtySession) (app_id input : String) :
    (m app_id = none →
      send_to_pty m app_id input =
        (Except.error ("No process found for app_id: " ++ app_id), m)) ∧
    (∀ s, m app_id = some s →
      (send_to_pty m app_id input).1 = Except.ok () ∧
      (send_to_pty m app_id input).2 app_id =
        some (PtySession.mk s.pid (s.stdinBuf ++ input.data ++ ['\n']) (s.flushCount + 1)) ∧
      (∀ k, k ≠ app_id → (send_to_pty m app_id input).2 k = m k)) := by
  constructor
  · intro h
    simp [send_to_pty, h]
  · intro s h
    refine ⟨?_, ?_, ?_⟩
    · simp [send_to_pty, h]
    · simp [send_to_pty, h]
    · intro k hk
      simp [send_to_pty, h, hk]

/-- C3 witness: on a registry holding one session for `io.example.app`
(pid 7, empty buffer), sending `y` writes `y\n` and flushes once, and
sending to the absent key `missing.app` fails with the not-found error
leaving the registry untouched. -/
theorem C3_witness :
    (send_to_pty regC3 "io.example.app" "y").1 = Except.ok () ∧
    (send_to_pty regC3 "io.example.app" "y").2 "io.example.app" =
      some (PtySession.mk 7 ['y', '\n'] 1) ∧
    send_to_pty regC3 "missing.app" "y" =
      (Except.error "No process found for app_id: missing.app", regC3) := by
  have h := (C3_send_to_pty regC3 "io.example.app" "y").2 (PtySession.mk 7 [] 0) rfl
  exact ⟨h.1, h.2.1, (C3_send_to_pty regC3 "missing.app" "y").1 (by decide)⟩

/-- C5: parsing the numbered dependency line
`1. org.kde.Platform 5.15-23.08 i flathub < 346,1 MB` yields name
`org.kde.Platform` and size `346,1 MB` (leading `<` stripped), and every
successfully parsed numbered dependency line uses the single extracted
size string for both the download and the installed size. -/
theorem C5_parseDepLine :
    parseDepLine "1. org.kde.Platform 5.15-23.08 i flathub < 346,1 MB" =
      some (Dependency.mk "org.kde.Platform" "346,1 MB" "346,1 MB") ∧
    ∀ (line : String) (d : Dependency),
      parseDepLine line = some d → d.download_size = d.installed_size := by
  constructor
  · decide
  · intro line d h
    unfold parseDepLine at h
    repeat' split at h
    all_goals simp_all
    all_goals rw [← h.2.2]

/-- C5 witness: the theorem applied at the example line. -/
theorem C5_witness :
    parseDepLine "1. org.kde.Platform 5.15-23.08 i flathub < 346,1 MB" =
      some (Dependency.mk "org.kde.Platform" "346,1 MB" "346,1 MB") ∧
    (Dependency.mk "org.kde.Platform" "346,1 MB" "346,1 MB").download_size =
      (Dependency.mk "org.kde.Platform" "346,1 MB" "346,1 MB").installed_size :=
  ⟨C5_parseDepLine.1, C5_parseDepLine.2 _ _ C5_parseDepLine.1⟩

/-- Peeling one element off a last-wins accumulation. -/
theorem lastUpd_cons {α : Type} (o : Option α) (x : α) (xs : List α) :
    lastUpd o (x :: xs) = lastUpd (some x) xs := by
  unfold lastUpd
  cases xs with
  | nil => simp
  | cons y ys =>
    rw [List.getLast?_cons_cons]
    cases h : (y :: ys).getLast? with
    | some z => rfl
    | none =>
      exfalso
      have he : (y :: ys) = [] := List.getLast?_eq_none_iff.mp h
      exact absurd he (by simp)

/-- A last-wins accumulation starting from nothing is just the last
element. -/
theorem lastUpd_none {α : Type} (xs : List α) :
    lastUpd (none : Option α) xs = xs.getLast? := by
  unfold lastUpd
  cases xs.getLast? <;> rfl

/-- The parsing loop of `get_install_dependencies` computes, from any
starting state: the last parsed row named after the package (later rows
overwrite earlier ones), the remaining parsed rows appended in order,
and the last runtime marker seen. -/
theorem depStep_foldl (app_id : String) (ls : List String) (st : DepScan) :
    ls.foldl (depStep app_id) st =
      DepScan.mk
        (lastUpd st.appMain
          ((ls.filterMap fun l => if (trimS l).isEmpty then none else parseDepLine l).filter
            fun d => d.name == app_id))
        (st.deps ++
          ((ls.filterMap fun l => if (trimS l).isEmpty then none else parseDepLine l).filter
            fun d => !(d.name == app_id)))
        (lastUpd st.runtime
          (ls.filterMap fun l => if (trimS l).isEmpty then none else markerOf l)) := by
  induction ls generalizing st with
  | nil => simp [lastUpd]
  | cons l ls ih =>
    rw [List.foldl_cons, ih]
    by_cases he : (trimS l).isEmpty
    · simp [depStep, he]
    · simp only [List.filterMap_cons, he, ite_false, Bool.false_eq_true, if_neg,
        not_false_iff]
      cases hp : parseDepLine l with
      | none =>
        cases hm : markerOf l with
        | none => simp [depStep, he, hp, hm]
        | some r => simp [depStep, he, hp, hm, lastUpd_cons]
      | some dep =>
        cases hname : (dep.name == app_id) with
        | true =>
          cases hm : markerOf l with
          | none => simp [depStep, he, hp, hm, hname, lastUpd_cons]
          | some r => simp [depStep, he, hp, hm, hname, lastUpd_cons]
        | false =>
          cases hm : markerOf l with
          | none => simp [depStep, he, hp, hm, hname, lastUpd_cons]
          | some r => simp [depStep, he, hp, hm, hname, lastUpd_cons]

/-- C6 (amended): the two `Unknown` fallback records — one named after
the requested package, one after the extracted runtime name — are
synthesized exactly when a `Required runtime for (runtime/NAME)` marker
was seen and no structured row was parsed for the requested package,
regardless of whether a structured row was parsed for the runtime; in
every other situation no fallback record is produced. -/
theorem C6_fallback_condition (app_id combined : String) :
    get_install_dependencies_parse app_id combined =
      match mainRow app_id combined with
      | some m => m :: otherRows app_id combined
      | none =>
        match markerRT combined with
        | some r =>
          Dependency.mk app_id "Unknown" "Unknown" ::
            (otherRows app_id combined ++ [Dependency.mk r "Unknown" "Unknown"])
        | none => otherRows app_id combined := by
  unfold get_install_dependencies_parse
  rw [depStep_foldl]
  simp only [mainRow, otherRows, parsedRows, markerRT, lastUpd_none, List.nil_append]
  cases hmain : ((((rustLines combined).filterMap fun l =>
      if (trimS l).isEmpty then none else parseDepLine l).filter
        fun d => d.name == app_id).getLast?) with
  | some m => rfl
  | none =>
    cases hrt : (((rustLines combined).filterMap fun l =>
        if (trimS l).isEmpty then none else markerOf l).getLast?) with
    | some r => rfl
    | none => rfl

set_option maxRecDepth 100000 in
/-- C6 counterexample: a structured row IS parsed for the runtime (its
name is exactly the extracted runtime name `org.kde.Platform/x86_64/
5.15-23.08`), yet — because no row was parsed for the requested package
`com.example.editor` — the two `Unknown` fallback records are still
synthesized, so the runtime even appears twice in the result.  This
refutes "the fallback is produced only when no structured row could be
parsed for either the requested package or the runtime". -/
theorem C6_counterexample :
    parseDepLine c6row =
      some (Dependency.mk "org.kde.Platform/x86_64/5.15-23.08" "300,0 MB" "300,0 MB") ∧
    get_install_dependencies_parse "com.example.editor" c6combined =
      [Dependency.mk "com.example.editor" "Unknown" "Unknown",
       Dependency.mk "org.kde.Platform/x86_64/5.15-23.08" "300,0 MB" "300,0 MB",
       Dependency.mk "org.kde.Platform/x86_64/5.15-23.08" "Unknown" "Unknown"] := by
  constructor
  · decide
  · decide
